import Mathlib

/-!
Bootstrap sequence of the controller: `launch.Run`

Shallow embedding of `pkg/controller/launch/launch.go`.

`Run` talks to seven collaborators (`config.Create`, `ctrl.NewManager`,
`mgr.AddHealthzCheck`, `mgr.AddReadyzCheck`, `Services.SetupWithManager`,
`IngressReconciler.SetupWithManager`, `mgr.Start`).  Each of them is invoked
at most once per run, so a run is determined by one outcome per collaborator.
The embedding takes these outcomes as input (`Outcomes`) and returns the
ordered trace of collaborator calls, log entries and `os.Exit` calls together
with the way `Run` ended.
-/

namespace launch

/-! ## Data model -/

/-- Error values returned by the collaborators (Go `error`, non-nil). -/
abbrev Err := String

/-- A `logr.Logger`, identified by the chain of names given with `WithName`. -/
structure Logger where
  names : List String
  deriving DecidableEq, Repr

/-- The method `Logger.WithName`: a logger with one more name element. -/
def Logger.WithName (l : Logger) (name : String) : Logger :=
  ⟨l.names ++ [name]⟩

/-- The root logger `ctrl.Log`. -/
def ctrlLog : Logger := ⟨[]⟩

/-- The execution context: the signal-handler context with a logger attached
by `logr.NewContext`. -/
structure Context where
  fromSignalHandler : Bool
  logger : Option Logger
  deriving DecidableEq, Repr

/-- The context returned by `ctrl.SetupSignalHandler()`. -/
def signalContext : Context := ⟨true, none⟩

/-- The function `logr.NewContext`: the same context carrying the logger. -/
def NewContext (ctx : Context) (l : Logger) : Context :=
  { ctx with logger := some l }

/-- The fields of `config.Config` that `Run` reads. -/
structure Config where
  KubeConfig : String
  Scheme : String
  Election : Bool
  ElectionID : String
  ElectionNamespace : String
  ProbeAddr : String
  MetricsAddr : String
  deriving DecidableEq, Repr

/-- The fields of `ctrl.Options` that `Run` sets. -/
structure Options where
  Logger : Logger
  Scheme : String
  LeaderElection : Bool
  LeaderElectionID : String
  LeaderElectionNamespace : String
  HealthProbeBindAddress : String
  MetricsBindAddress : String
  deriving DecidableEq, Repr

/-- The cluster client handed out by `mgr.GetClient()`. -/
abbrev Client := Nat

/-- A constructed manager; `Run` only reads its client. -/
structure Manager where
  client : Client
  deriving DecidableEq, Repr

/-- Health checkers; `Run` only uses `healthz.Ping`. -/
inductive Checker where
  | Ping
  deriving DecidableEq, Repr

/-- The value `&services.Services{Client, Config}` built by `Run`. -/
structure Services where
  Client : Client
  Config : Config
  deriving DecidableEq, Repr

/-- The value `&reconciler.IngressReconciler{Client, Config, Services}` built
by `Run`. -/
structure IngressReconciler where
  Client : Client
  Config : Config
  Services : Services
  deriving DecidableEq, Repr

/-- Collaborator calls made by `Run`, with their arguments. -/
inductive Call where
  | setupSignalHandler
  | configCreate (ctx : Context)
  | newManager (kube : String) (opts : Options)
  | addHealthzCheck (mgr : Manager) (name : String) (check : Checker)
  | addReadyzCheck (mgr : Manager) (name : String) (check : Checker)
  | getClient (mgr : Manager)
  | servicesSetup (svc : Services) (ctx : Context) (mgr : Manager)
  | reconcilerSetup (reconciler : IngressReconciler) (ctx : Context) (mgr : Manager)
  | mgrStart (mgr : Manager) (ctx : Context)
  deriving DecidableEq, Repr

/-- One observable event of a run.  A `call` event stands for a completed
synchronous call and records the error it returned (`none` for `nil`). -/
inductive Event where
  | call (c : Call) (err : Option Err)
  | logInfo (logger : Logger) (msg : String)
  | logError (logger : Logger) (err : Err) (msg : String)
  | osExit (code : Nat)
  deriving DecidableEq, Repr

/-- How `Run` ended: it returned to its caller, or it called `os.Exit`. -/
inductive Termination where
  | returned
  | exited (code : Nat)
  deriving DecidableEq, Repr

/-- The observable behaviour of one run. -/
structure RunResult where
  trace : List Event
  termination : Termination
  deriving DecidableEq, Repr

/-- Process exit status: the code given to `os.Exit`, or 0 when `Run`
returns normally. -/
def RunResult.status (r : RunResult) : Nat :=
  match r.termination with
  | .returned => 0
  | .exited code => code

/-- The outcome of each collaborator call: an error, or success (with the
returned value for `config.Create` and `ctrl.NewManager`). -/
structure Outcomes where
  create : Except Err Config
  newManager : Except Err Manager
  addHealthzCheck : Option Err
  addReadyzCheck : Option Err
  servicesSetup : Option Err
  reconcilerSetup : Option Err
  start : Option Err

/-! ## The program -/

/-- The failure branch shared by every step: `launchLog.Error(err, msg)`
followed by `os.Exit(1)`. -/
def fatal (t : List Event) (log : Logger) (err : Err) (msg : String) : RunResult :=
  ⟨t ++ [Event.logError log err msg, Event.osExit 1], Termination.exited 1⟩

/-- The execution context built on line 34 of launch.go. -/
def runCtx : Context := NewContext signalContext ctrlLog

/-- The logger `launchLog` of line 36. -/
def launchLog : Logger := ctrlLog.WithName "launch"

/-- The `ctrl.Options` literal of lines 43-51. -/
def managerOptions (config : Config) : Options :=
  { Logger := ctrlLog.WithName "manager"
    Scheme := config.Scheme
    LeaderElection := config.Election
    LeaderElectionID := config.ElectionID
    LeaderElectionNamespace := config.ElectionNamespace
    HealthProbeBindAddress := config.ProbeAddr
    MetricsBindAddress := config.MetricsAddr }

/-- The function `launch.Run`, line by line. -/
def Run (o : Outcomes) : RunResult :=
  let rootLogger := ctrlLog
  let t := [Event.call Call.setupSignalHandler none]
  let ctx := NewContext signalContext rootLogger
  let launchLog := rootLogger.WithName "launch"
  match o.create with
  | .error err =>
    fatal (t ++ [Event.call (Call.configCreate ctx) (some err)]) launchLog err
      "unable to parse static config"
  | .ok config =>
  let t := t ++ [Event.call (Call.configCreate ctx) none]
  let t := t ++ [Event.logInfo launchLog "configuring manager"]
  let opts := managerOptions config
  match o.newManager with
  | .error err =>
    fatal (t ++ [Event.call (Call.newManager config.KubeConfig opts) (some err)]) launchLog err
      "unable to start manager"
  | .ok mgr =>
  let t := t ++ [Event.call (Call.newManager config.KubeConfig opts) none]
  let t := t ++ [Event.logInfo launchLog "configuring probes"]
  match o.addHealthzCheck with
  | some err =>
    fatal (t ++ [Event.call (Call.addHealthzCheck mgr "healthz" Checker.Ping) (some err)])
      launchLog err "unable to set up health check"
  | none =>
  let t := t ++ [Event.call (Call.addHealthzCheck mgr "healthz" Checker.Ping) none]
  match o.addReadyzCheck with
  | some err =>
    fatal (t ++ [Event.call (Call.addReadyzCheck mgr "readyz" Checker.Ping) (some err)])
      launchLog err "unable to set up ready check"
  | none =>
  let t := t ++ [Event.call (Call.addReadyzCheck mgr "readyz" Checker.Ping) none]
  let t := t ++ [Event.logInfo launchLog "configuring services"]
  let t := t ++ [Event.call (Call.getClient mgr) none]
  let services : Services := { Client := mgr.client, Config := config }
  match o.servicesSetup with
  | some err =>
    fatal (t ++ [Event.call (Call.servicesSetup services ctx mgr) (some err)]) launchLog err
      "unable to create services"
  | none =>
  let t := t ++ [Event.call (Call.servicesSetup services ctx mgr) none]
  let t := t ++ [Event.logInfo launchLog "configuring ingress reconciler"]
  let t := t ++ [Event.call (Call.getClient mgr) none]
  let reconciler : IngressReconciler :=
    { Client := mgr.client, Config := config, Services := services }
  match o.reconcilerSetup with
  | some err =>
    fatal (t ++ [Event.call (Call.reconcilerSetup reconciler ctx mgr) (some err)]) launchLog err
      "unable to create controller"
  | none =>
  let t := t ++ [Event.call (Call.reconcilerSetup reconciler ctx mgr) none]
  let t := t ++ [Event.logInfo launchLog "starting manager"]
  match o.start with
  | some err =>
    fatal (t ++ [Event.call (Call.mgrStart mgr ctx) (some err)]) launchLog err
      "problem running manager"
  | none =>
  ⟨t ++ [Event.call (Call.mgrStart mgr ctx) none], Termination.returned⟩

/-! ## Observing a trace -/

/-- The seven fallible steps of `Run`, in source order. -/
inductive Step where
  | configCreate
  | newManager
  | addHealthzCheck
  | addReadyzCheck
  | servicesSetup
  | reconcilerSetup
  | mgrStart
  deriving DecidableEq, Repr, Fintype

/-- All seven steps in the order in which launch.go performs them. -/
def Step.order : List Step :=
  [.configCreate, .newManager, .addHealthzCheck, .addReadyzCheck, .servicesSetup,
    .reconcilerSetup, .mgrStart]

/-- The message literal that launch.go passes to `launchLog.Error` on the
failure branch of each step (lines 38, 53, 59, 63, 73, 83, 89). -/
def Step.message : Step → String
  | .configCreate => "unable to parse static config"
  | .newManager => "unable to start manager"
  | .addHealthzCheck => "unable to set up health check"
  | .addReadyzCheck => "unable to set up ready check"
  | .servicesSetup => "unable to create services"
  | .reconcilerSetup => "unable to create controller"
  | .mgrStart => "problem running manager"

/-- The step a call belongs to; `SetupSignalHandler` and `GetClient` cannot
fail and are not steps. -/
def Call.step : Call → Option Step
  | .setupSignalHandler => none
  | .configCreate _ => some .configCreate
  | .newManager _ _ => some .newManager
  | .addHealthzCheck _ _ _ => some .addHealthzCheck
  | .addReadyzCheck _ _ _ => some .addReadyzCheck
  | .getClient _ => none
  | .servicesSetup _ _ _ => some .servicesSetup
  | .reconcilerSetup _ _ _ => some .reconcilerSetup
  | .mgrStart _ _ => some .mgrStart

/-- For a call event of one of the seven steps: the step and whether the call
succeeded (returned a nil error). -/
def Event.stepOk : Event → Option (Step × Bool)
  | .call c err => (c.step).map (fun s => (s, err.isNone))
  | _ => none

/-- The executed steps of a trace with their success flags, in trace order. -/
def callLog (t : List Event) : List (Step × Bool) :=
  t.filterMap Event.stepOk

/-- The executed steps of a trace, in trace order. -/
def stepsOf (t : List Event) : List Step :=
  (callLog t).map Prod.fst

/-- Whether a step is a subsystem registration (`SetupWithManager`). -/
def Step.isRegistration : Step → Bool
  | .servicesSetup => true
  | .reconcilerSetup => true
  | _ => false

/-- The subsystem registrations of a trace, in trace order. -/
def registrations (t : List Event) : List Step :=
  (stepsOf t).filter Step.isRegistration

/-- Error-level log entries. -/
def Event.isErrorLog : Event → Bool
  | .logError _ _ _ => true
  | _ => false

/-- Info-level log entries. -/
def Event.isInfoLog : Event → Bool
  | .logInfo _ _ => true
  | _ => false

/-- Calls of the manager constructor `ctrl.NewManager`. -/
def Event.isNewManager : Event → Bool
  | .call (.newManager _ _) _ => true
  | _ => false

/-- Whether every collaborator outcome is a success. -/
def Outcomes.allSucceed (o : Outcomes) : Bool :=
  (match o.create with | .ok _ => true | .error _ => false) &&
  (match o.newManager with | .ok _ => true | .error _ => false) &&
  o.addHealthzCheck.isNone && o.addReadyzCheck.isNone &&
  o.servicesSetup.isNone && o.reconcilerSetup.isNone && o.start.isNone

/-- The call log of a run in which the first `k` steps succeed and the next
one, if any is left, fails. -/
def logShape (k : Nat) : List (Step × Bool) :=
  (Step.order.take k).map (fun s => (s, true)) ++
    ((Step.order.drop k).take 1).map (fun s => (s, false))

/-! ## Sample inputs -/

/-- A configuration with leader election enabled. -/
def sampleConfig : Config :=
  { KubeConfig := "kube", Scheme := "scheme", Election := true, ElectionID := "id",
    ElectionNamespace := "ns", ProbeAddr := ":10254", MetricsAddr := ":9105" }

/-- A constructed manager. -/
def sampleManager : Manager := ⟨7⟩

/-- Every collaborator succeeds. -/
def okOutcomes : Outcomes :=
  { create := .ok sampleConfig, newManager := .ok sampleManager, addHealthzCheck := none,
    addReadyzCheck := none, servicesSetup := none, reconcilerSetup := none, start := none }

/-- The loader fails with the error of the scenario in the specification. -/
def createFails : Outcomes :=
  { okOutcomes with create := .error "invalid connection descriptor" }

/-- The manager constructor fails. -/
def managerFails : Outcomes :=
  { okOutcomes with newManager := .error "bind: address already in use" }

/-- The liveness registration fails. -/
def healthzFails : Outcomes :=
  { okOutcomes with addHealthzCheck := some "duplicate check" }

/-- The Services registration fails. -/
def servicesFail : Outcomes :=
  { okOutcomes with servicesSetup := some "no kind registered" }

/-- The run loop ends with an error. -/
def startFails : Outcomes :=
  { okOutcomes with start := some "leader election lost" }

/-! ## Theorems -/

/-- C1: when `config.Create` returns an error, `Run` exits with status 1, its
only error log entry is "unable to parse static config" carrying that error,
and the only step in the trace is `config.Create`: the manager constructor and
all later steps are never called. -/
theorem Run_create_error (o : Outcomes) (err : Err) (h : o.create = .error err) :
    (Run o).status = 1 ∧
    (Run o).termination = Termination.exited 1 ∧
    (Run o).trace.filter Event.isErrorLog =
      [Event.logError launchLog err "unable to parse static config"] ∧
    (Run o).trace.filter Event.isNewManager = [] ∧
    stepsOf (Run o).trace = [Step.configCreate] := by
  simp [Run, h, fatal, RunResult.status, stepsOf, callLog, Event.stepOk, Call.step,
    Event.isErrorLog, Event.isNewManager, launchLog]

/-- Witness of C1 on the scenario "invalid connection descriptor". -/
theorem Run_create_error_witness :
    (Run createFails).status = 1 ∧
    (Run createFails).termination = Termination.exited 1 ∧
    (Run createFails).trace.filter Event.isErrorLog =
      [Event.logError launchLog "invalid connection descriptor"
        "unable to parse static config"] ∧
    (Run createFails).trace.filter Event.isNewManager = [] ∧
    stepsOf (Run createFails).trace = [Step.configCreate] :=
  Run_create_error createFails "invalid connection descriptor" rfl

/-- C2: when `config.Create` succeeds and `ctrl.NewManager` returns an error,
`Run` exits with status 1 and the steps of its trace are exactly
`config.Create` and `ctrl.NewManager`: neither probe registration nor any
later step is called. -/
theorem Run_newManager_error (o : Outcomes) (config : Config) (err : Err)
    (hc : o.create = .ok config) (hm : o.newManager = .error err) :
    (Run o).status = 1 ∧
    Step.addHealthzCheck ∉ stepsOf (Run o).trace ∧
    Step.addReadyzCheck ∉ stepsOf (Run o).trace ∧
    stepsOf (Run o).trace = [Step.configCreate, Step.newManager] ∧
    (Run o).trace.filter Event.isErrorLog =
      [Event.logError launchLog err "unable to start manager"] := by
  simp [Run, hc, hm, fatal, RunResult.status, stepsOf, callLog, Event.stepOk, Call.step,
    Event.isErrorLog, launchLog]

/-- Witness of C2 on a bind-address conflict. -/
theorem Run_newManager_error_witness :
    (Run managerFails).status = 1 ∧
    Step.addHealthzCheck ∉ stepsOf (Run managerFails).trace ∧
    Step.addReadyzCheck ∉ stepsOf (Run managerFails).trace ∧
    stepsOf (Run managerFails).trace = [Step.configCreate, Step.newManager] ∧
    (Run managerFails).trace.filter Event.isErrorLog =
      [Event.logError launchLog "bind: address already in use" "unable to start manager"] :=
  Run_newManager_error managerFails sampleConfig "bind: address already in use" rfl rfl

/-- C3: in every assignment of outcomes where the liveness or the readiness
registration returns an error, `Run` exits with status 1 and neither
`Services.SetupWithManager` nor `IngressReconciler.SetupWithManager` is
called; when the liveness registration is the failing one, the readiness
registration is not called either. -/
theorem Run_probe_error (o : Outcomes)
    (h : o.addHealthzCheck ≠ none ∨ o.addReadyzCheck ≠ none) :
    (Run o).status = 1 ∧
    Step.servicesSetup ∉ stepsOf (Run o).trace ∧
    Step.reconcilerSetup ∉ stepsOf (Run o).trace ∧
    (o.addHealthzCheck ≠ none → Step.addReadyzCheck ∉ stepsOf (Run o).trace) := by
  obtain ⟨c, m, hz, rz, sv, rc, st⟩ := o
  cases c <;> cases m <;> cases hz <;> cases rz <;>
    simp_all [Run, fatal, RunResult.status, stepsOf, callLog, Event.stepOk, Call.step]

/-- Witness of C3: the loader and the constructor succeed, the liveness
registration fails. -/
theorem Run_probe_error_witness :
    stepsOf (Run healthzFails).trace =
      [Step.configCreate, Step.newManager, Step.addHealthzCheck] ∧
    (Run healthzFails).status = 1 ∧
    Step.servicesSetup ∉ stepsOf (Run healthzFails).trace ∧
    Step.reconcilerSetup ∉ stepsOf (Run healthzFails).trace ∧
    (healthzFails.addHealthzCheck ≠ none →
      Step.addReadyzCheck ∉ stepsOf (Run healthzFails).trace) :=
  ⟨by decide, Run_probe_error healthzFails (Or.inl (by decide))⟩

/-- C4: in every assignment of outcomes where `Services.SetupWithManager` or
`IngressReconciler.SetupWithManager` returns an error, `Run` exits with
status 1 and `mgr.Start` is never called; when the Services registration is
the failing one, the reconciler registration is never called. -/
theorem Run_registration_error (o : Outcomes)
    (h : o.servicesSetup ≠ none ∨ o.reconcilerSetup ≠ none) :
    (Run o).status = 1 ∧
    Step.mgrStart ∉ stepsOf (Run o).trace ∧
    (o.servicesSetup ≠ none → Step.reconcilerSetup ∉ stepsOf (Run o).trace) := by
  obtain ⟨c, m, hz, rz, sv, rc, st⟩ := o
  cases c <;> cases m <;> cases hz <;> cases rz <;> cases sv <;> cases rc <;>
    simp_all [Run, fatal, RunResult.status, stepsOf, callLog, Event.stepOk, Call.step]

/-- Witness of C4: everything up to the probes succeeds, the Services
registration fails. -/
theorem Run_registration_error_witness :
    stepsOf (Run servicesFail).trace =
      [Step.configCreate, Step.newManager, Step.addHealthzCheck, Step.addReadyzCheck,
        Step.servicesSetup] ∧
    (Run servicesFail).status = 1 ∧
    Step.mgrStart ∉ stepsOf (Run servicesFail).trace ∧
    (servicesFail.servicesSetup ≠ none →
      Step.reconcilerSetup ∉ stepsOf (Run servicesFail).trace) :=
  ⟨by decide, Run_registration_error servicesFail (Or.inl (by decide))⟩

/-- C9: for every configuration `c` returned by `config.Create`, the trace
holds exactly one call of `ctrl.NewManager`; its first argument is
`c.KubeConfig` and its options copy `Scheme`, `Election`, `ElectionID`,
`ElectionNamespace`, `ProbeAddr` and `MetricsAddr` from `c`, so that leader
election is requested exactly when `c.Election` is true. -/
theorem Run_newManager_arguments (o : Outcomes) (c : Config) (h : o.create = .ok c) :
    ∃ opts r,
      (Run o).trace.filter Event.isNewManager =
        [Event.call (Call.newManager c.KubeConfig opts) r] ∧
      opts.Logger = ctrlLog.WithName "manager" ∧
      opts.Scheme = c.Scheme ∧
      opts.LeaderElection = c.Election ∧
      opts.LeaderElectionID = c.ElectionID ∧
      opts.LeaderElectionNamespace = c.ElectionNamespace ∧
      opts.HealthProbeBindAddress = c.ProbeAddr ∧
      opts.MetricsBindAddress = c.MetricsAddr ∧
      (opts.LeaderElection = true ↔ c.Election = true) := by
  obtain ⟨cr, m, hz, rz, sv, rc, st⟩ := o
  subst h
  refine ⟨managerOptions c, (match m with | .ok _ => none | .error e => some e), ?_,
    rfl, rfl, rfl, rfl, rfl, rfl, rfl, Iff.rfl⟩
  cases m <;> cases hz <;> cases rz <;> cases sv <;> cases rc <;> cases st <;>
    simp [Run, fatal, Event.isNewManager]

/-- Witness of C9 on a run where every collaborator succeeds. -/
theorem Run_newManager_arguments_witness :
    ∃ opts r,
      (Run okOutcomes).trace.filter Event.isNewManager =
        [Event.call (Call.newManager sampleConfig.KubeConfig opts) r] ∧
      opts.Logger = ctrlLog.WithName "manager" ∧
      opts.Scheme = sampleConfig.Scheme ∧
      opts.LeaderElection = sampleConfig.Election ∧
      opts.LeaderElectionID = sampleConfig.ElectionID ∧
      opts.LeaderElectionNamespace = sampleConfig.ElectionNamespace ∧
      opts.HealthProbeBindAddress = sampleConfig.ProbeAddr ∧
      opts.MetricsBindAddress = sampleConfig.MetricsAddr ∧
      (opts.LeaderElection = true ↔ sampleConfig.Election = true) :=
  Run_newManager_arguments okOutcomes sampleConfig rfl

/-- C6: the exit status of `Run` is 0 or 1; it is 1 exactly when some executed
step returned an error, and it is 0 exactly when all seven steps were executed
and succeeded, in which case `Run` returns without calling `os.Exit`. -/
theorem Run_exit_status (o : Outcomes) :
    ((Run o).status = 0 ∨ (Run o).status = 1) ∧
    ((Run o).status = 1 ↔
      ∃ c err, c.step ≠ none ∧ Event.call c (some err) ∈ (Run o).trace) ∧
    ((Run o).status = 0 ↔
      (∀ s : Step, (s, true) ∈ callLog (Run o).trace) ∧
      (∀ s : Step, (s, false) ∉ callLog (Run o).trace)) ∧
    ((Run o).status = 0 ↔
      (Run o).termination = Termination.returned ∧
      ∀ code, Event.osExit code ∉ (Run o).trace) ∧
    ((Run o).status = 0 ↔ o.allSucceed = true) := by
  obtain ⟨c, m, hz, rz, sv, rc, st⟩ := o
  rcases c with e | c
  · simp [Run, fatal, RunResult.status, callLog, Event.stepOk, Call.step,
      Outcomes.allSucceed]
  rcases m with e | m
  · simp [Run, fatal, RunResult.status, callLog, Event.stepOk, Call.step,
      Outcomes.allSucceed]
  rcases hz with _ | e
  swap
  · simp [Run, fatal, RunResult.status, callLog, Event.stepOk, Call.step,
      Outcomes.allSucceed]
  rcases rz with _ | e
  swap
  · simp [Run, fatal, RunResult.status, callLog, Event.stepOk, Call.step,
      Outcomes.allSucceed]
  rcases sv with _ | e
  swap
  · simp [Run, fatal, RunResult.status, callLog, Event.stepOk, Call.step,
      Outcomes.allSucceed]
  rcases rc with _ | e
  swap
  · simp [Run, fatal, RunResult.status, callLog, Event.stepOk, Call.step,
      Outcomes.allSucceed]
  rcases st with _ | e
  swap
  · simp [Run, fatal, RunResult.status, callLog, Event.stepOk, Call.step,
      Outcomes.allSucceed]
  simp [Run, fatal, RunResult.status, callLog, Event.stepOk, Call.step,
      Outcomes.allSucceed]
  intro s
  cases s <;> simp

/-! ### Auxiliary facts -/

/-- Quantifying over the ways to split a list around one element is
quantifying over its positions. -/
theorem forall_split_iff {α : Type} (l : List α) (P : List α → α → List α → Prop) :
    (∀ pre x post, l = pre ++ x :: post → P pre x post) ↔
      ∀ i : Fin l.length, P (l.take i) (l.get i) (l.drop (i + 1)) := by
  constructor
  · intro h i
    apply h
    simp
  · intro h pre x post hl
    subst hl
    have h1 := h ⟨pre.length, by simp⟩
    have hx : (pre ++ x :: post).get ⟨pre.length, by simp⟩ = x := by
      simp [List.getElem_of_append rfl rfl]
    rw [hx] at h1
    simpa using h1

/-- The seven failure messages are pairwise distinct. -/
theorem Step_message_injective : Function.Injective Step.message := by
  intro a b h
  cases a <;> cases b <;> first | rfl | (exact absurd h (by decide))

/-- The call log of every run: a prefix of the seven steps in source order,
all successful except possibly the last one. -/
theorem callLog_Run (o : Outcomes) :
    ∃ k : Fin 8, callLog (Run o).trace = logShape k := by
  obtain ⟨c, m, hz, rz, sv, rc, st⟩ := o
  rcases c with e | c
  · exact ⟨0, rfl⟩
  rcases m with e | m
  · exact ⟨1, rfl⟩
  rcases hz with _ | e
  swap
  · exact ⟨2, rfl⟩
  rcases rz with _ | e
  swap
  · exact ⟨3, rfl⟩
  rcases sv with _ | e
  swap
  · exact ⟨4, rfl⟩
  rcases rc with _ | e
  swap
  · exact ⟨5, rfl⟩
  rcases st with _ | e
  swap
  · exact ⟨6, rfl⟩
  exact ⟨7, rfl⟩

/-- Splitting a trace at a step call splits its call log at that step. -/
theorem callLog_split (pre post : List Event) (c : Call) (r : Option Err) (s : Step)
    (hs : c.step = some s) :
    callLog (pre ++ Event.call c r :: post) =
      callLog pre ++ (s, r.isNone) :: callLog post := by
  simp [callLog, List.filterMap_append, List.filterMap_cons, Event.stepOk, hs]

/-- A successful entry of the call log comes from a call event that returned
no error. -/
theorem mem_callLog_true {t : List Event} {s : Step} (h : (s, true) ∈ callLog t) :
    ∃ c, c.step = some s ∧ Event.call c none ∈ t := by
  simp only [callLog, List.mem_filterMap] at h
  obtain ⟨ev, hev, hok⟩ := h
  cases ev with
  | call c r =>
    cases r with
    | none =>
      refine ⟨c, ?_, hev⟩
      cases hc : c.step <;> simp_all [Event.stepOk]
    | some e =>
      cases hc : c.step <;> simp_all [Event.stepOk]
  | logInfo l m => simp [Event.stepOk] at hok
  | logError l e m => simp [Event.stepOk] at hok
  | osExit n => simp [Event.stepOk] at hok

/-- In every call-log shape a reconciler registration comes after a successful
Services registration. -/
theorem logShape_reconciler (k : Fin 8) (pre : List (Step × Bool)) (x : Step × Bool)
    (post : List (Step × Bool)) (h : logShape k = pre ++ x :: post)
    (hx : x.1 = Step.reconcilerSetup) : (Step.servicesSetup, true) ∈ pre := by
  have key : ∀ k : Fin 8, ∀ i : Fin (logShape k).length,
      ((logShape k).get i).1 = Step.reconcilerSetup →
        (Step.servicesSetup, true) ∈ (logShape k).take i := by decide
  exact (forall_split_iff (logShape k)
    (fun pre x _ => x.1 = Step.reconcilerSetup → (Step.servicesSetup, true) ∈ pre)).2
    (key k) pre x post h hx

/-- In every call-log shape both registrations precede the run loop, have
succeeded, and none follows it. -/
theorem logShape_start (k : Fin 8) (pre : List (Step × Bool)) (x : Step × Bool)
    (post : List (Step × Bool)) (h : logShape k = pre ++ x :: post)
    (hx : x.1 = Step.mgrStart) :
    (pre.map Prod.fst).filter Step.isRegistration =
        [Step.servicesSetup, Step.reconcilerSetup] ∧
      (post.map Prod.fst).filter Step.isRegistration = [] ∧
      ∀ p ∈ pre, p.2 = true := by
  have key : ∀ k : Fin 8, ∀ i : Fin (logShape k).length,
      ((logShape k).get i).1 = Step.mgrStart →
        (((logShape k).take i).map Prod.fst).filter Step.isRegistration =
          [Step.servicesSetup, Step.reconcilerSetup] ∧
        (((logShape k).drop (i + 1)).map Prod.fst).filter Step.isRegistration = [] ∧
        ∀ p ∈ (logShape k).take i, p.2 = true := by decide
  exact (forall_split_iff (logShape k)
    (fun pre x post => x.1 = Step.mgrStart →
      (pre.map Prod.fst).filter Step.isRegistration =
        [Step.servicesSetup, Step.reconcilerSetup] ∧
      (post.map Prod.fst).filter Step.isRegistration = [] ∧
      ∀ p ∈ pre, p.2 = true)).2
    (key k) pre x post h hx

/-- Counting facts on the call-log shapes. -/
theorem logShape_counts (k : Fin 8) :
    ((logShape k).map Prod.fst).filter Step.isRegistration <+:
        [Step.servicesSetup, Step.reconcilerSetup] ∧
      (∀ s : Step, ((logShape k).map Prod.fst).count s ≤ 1) ∧
      (Step.mgrStart ∈ (logShape k).map Prod.fst →
        ((logShape k).map Prod.fst).count Step.servicesSetup = 1 ∧
        ((logShape k).map Prod.fst).count Step.reconcilerSetup = 1) := by
  revert k
  decide

/-! ### Ordering of the registrations -/

/-- C5: the subsystem registrations of every trace form a prefix of
[Services, Reconciler] and no step is called twice; a reconciler registration
is preceded by a Services registration that returned no error; at a call of
`mgr.Start` both registrations have been made before it, all earlier steps
succeeded, and no registration follows it; a trace that reaches `mgr.Start`
holds each registration exactly once. -/
theorem Run_registration_order (o : Outcomes) :
    registrations (Run o).trace <+: [Step.servicesSetup, Step.reconcilerSetup] ∧
    (∀ s : Step, (stepsOf (Run o).trace).count s ≤ 1) ∧
    (∀ pre c r post, (Run o).trace = pre ++ Event.call c r :: post →
      c.step = some Step.reconcilerSetup →
      ∃ c2, c2.step = some Step.servicesSetup ∧ Event.call c2 none ∈ pre) ∧
    (∀ pre c r post, (Run o).trace = pre ++ Event.call c r :: post →
      c.step = some Step.mgrStart →
      registrations pre = [Step.servicesSetup, Step.reconcilerSetup] ∧
      registrations post = [] ∧
      ∀ p ∈ callLog pre, p.2 = true) ∧
    (Step.mgrStart ∈ stepsOf (Run o).trace →
      (stepsOf (Run o).trace).count Step.servicesSetup = 1 ∧
      (stepsOf (Run o).trace).count Step.reconcilerSetup = 1) := by
  obtain ⟨k, hk⟩ := callLog_Run o
  have hc := logShape_counts k
  rw [← hk] at hc
  refine ⟨hc.1, hc.2.1, ?_, ?_, hc.2.2⟩
  · intro pre c r post ht hs
    have hsplit := callLog_split pre post c r _ hs
    rw [← ht, hk] at hsplit
    exact mem_callLog_true (logShape_reconciler k _ _ _ hsplit rfl)
  · intro pre c r post ht hs
    have hsplit := callLog_split pre post c r _ hs
    rw [← ht, hk] at hsplit
    exact logShape_start k _ _ _ hsplit rfl

/-! ### Failure reporting -/

/-- C7: a run with a non-zero exit status ends with the failing call, one
error log entry carrying the error that call returned and the message of its
stage, and `os.Exit(1)`; nothing before it is an error log entry and every
earlier step succeeded; the seven stage messages are pairwise distinct. -/
theorem Run_failure_logged (o : Outcomes) (h : (Run o).status ≠ 0) :
    (∃ pre c err s,
      (Run o).trace = pre ++ [Event.call c (some err),
        Event.logError launchLog err s.message, Event.osExit 1] ∧
      c.step = some s ∧
      pre.filter Event.isErrorLog = [] ∧
      (callLog pre).all (fun p => p.2) = true ∧
      (Run o).trace.filter Event.isErrorLog =
        [Event.logError launchLog err s.message]) ∧
    Function.Injective Step.message := by
  refine ⟨?_, Step_message_injective⟩
  obtain ⟨c, m, hz, rz, sv, rc, st⟩ := o
  rcases c with e | c
  · exact ⟨(Run ⟨.error e, m, hz, rz, sv, rc, st⟩).trace.take 1,
      Call.configCreate runCtx, e, Step.configCreate, rfl, rfl, rfl,
      rfl, rfl⟩
  rcases m with e | m
  · exact ⟨(Run ⟨.ok c, .error e, hz, rz, sv, rc, st⟩).trace.take 3,
      Call.newManager c.KubeConfig (managerOptions c), e, Step.newManager,
      by simp [Run, fatal, launchLog, Step.message, runCtx], rfl,
      by simp [Run, fatal, Event.isErrorLog],
      by simp [Run, fatal, callLog, Event.stepOk, Call.step],
      by simp [Run, fatal, Event.isErrorLog, launchLog, Step.message]⟩
  rcases hz with _ | e
  swap
  · exact ⟨(Run ⟨.ok c, .ok m, some e, rz, sv, rc, st⟩).trace.take 5,
      Call.addHealthzCheck m "healthz" Checker.Ping, e, Step.addHealthzCheck,
      by simp [Run, fatal, launchLog, Step.message, runCtx], rfl,
      by simp [Run, fatal, Event.isErrorLog],
      by simp [Run, fatal, callLog, Event.stepOk, Call.step],
      by simp [Run, fatal, Event.isErrorLog, launchLog, Step.message]⟩
  rcases rz with _ | e
  swap
  · exact ⟨(Run ⟨.ok c, .ok m, none, some e, sv, rc, st⟩).trace.take 6,
      Call.addReadyzCheck m "readyz" Checker.Ping, e, Step.addReadyzCheck,
      by simp [Run, fatal, launchLog, Step.message, runCtx], rfl,
      by simp [Run, fatal, Event.isErrorLog],
      by simp [Run, fatal, callLog, Event.stepOk, Call.step],
      by simp [Run, fatal, Event.isErrorLog, launchLog, Step.message]⟩
  rcases sv with _ | e
  swap
  · exact ⟨(Run ⟨.ok c, .ok m, none, none, some e, rc, st⟩).trace.take 9,
      Call.servicesSetup ⟨m.client, c⟩ runCtx m, e, Step.servicesSetup,
      by simp [Run, fatal, launchLog, Step.message, runCtx], rfl,
      by simp [Run, fatal, Event.isErrorLog],
      by simp [Run, fatal, callLog, Event.stepOk, Call.step],
      by simp [Run, fatal, Event.isErrorLog, launchLog, Step.message]⟩
  rcases rc with _ | e
  swap
  · exact ⟨(Run ⟨.ok c, .ok m, none, none, none, some e, st⟩).trace.take 12,
      Call.reconcilerSetup ⟨m.client, c, ⟨m.client, c⟩⟩ runCtx m, e,
      Step.reconcilerSetup, by simp [Run, fatal, launchLog, Step.message, runCtx], rfl,
      by simp [Run, fatal, Event.isErrorLog],
      by simp [Run, fatal, callLog, Event.stepOk, Call.step],
      by simp [Run, fatal, Event.isErrorLog, launchLog, Step.message]⟩
  rcases st with _ | e
  swap
  · exact ⟨(Run ⟨.ok c, .ok m, none, none, none, none, some e⟩).trace.take 14,
      Call.mgrStart m runCtx, e, Step.mgrStart,
      by simp [Run, fatal, launchLog, Step.message, runCtx], rfl,
      by simp [Run, fatal, Event.isErrorLog],
      by simp [Run, fatal, callLog, Event.stepOk, Call.step],
      by simp [Run, fatal, Event.isErrorLog, launchLog, Step.message]⟩
  exact absurd rfl h

/-- Witness of C7: the run loop fails and the run reports "problem running
manager". -/
theorem Run_failure_logged_witness :
    (Run startFails).status ≠ 0 ∧
    ((∃ pre c err s,
      (Run startFails).trace = pre ++ [Event.call c (some err),
        Event.logError launchLog err s.message, Event.osExit 1] ∧
      c.step = some s ∧
      pre.filter Event.isErrorLog = [] ∧
      (callLog pre).all (fun p => p.2) = true ∧
      (Run startFails).trace.filter Event.isErrorLog =
        [Event.logError launchLog err s.message]) ∧
    Function.Injective Step.message) :=
  ⟨by decide, Run_failure_logged startFails (by decide)⟩

/-! ### Clean shutdown -/

/-- C8 fails as stated: in the run where every collaborator succeeds the exit
status is 0 and no informational log entry follows the call of `mgr.Start`. -/
theorem Run_clean_shutdown_not_logged :
    okOutcomes.allSucceed = true ∧ (Run okOutcomes).status = 0 ∧
    ¬ ∃ pre c r post logger msg,
      (Run okOutcomes).trace = pre ++ Event.call c r :: post ∧
      c.step = some Step.mgrStart ∧ Event.logInfo logger msg ∈ post := by
  refine ⟨by decide, by decide, ?_⟩
  rintro ⟨pre, c, r, post, logger, msg, ht, hs, hm⟩
  have key : ∀ i : Fin (Run okOutcomes).trace.length,
      (((Run okOutcomes).trace.get i).stepOk).map Prod.fst = some Step.mgrStart →
        ((Run okOutcomes).trace.drop (i + 1)).all (fun ev => !ev.isInfoLog) = true := by
    decide
  have hall := (forall_split_iff (Run okOutcomes).trace
    (fun _ x post => (x.stepOk).map Prod.fst = some Step.mgrStart →
      post.all (fun ev => !ev.isInfoLog) = true)).2 key pre _ post ht
    (by simp [Event.stepOk, hs])
  have hinfo := List.all_eq_true.1 hall _ hm
  simp [Event.isInfoLog] at hinfo

/-- C8, amended: when every collaborator succeeds, `Run` returns normally with
exit status 0, the call of `mgr.Start` is the last event of the trace and the
only call of that step, the entry logged just before it is the informational
"starting manager", and no error is logged. -/
theorem Run_clean_shutdown (o : Outcomes) (h : o.allSucceed = true) :
    (Run o).status = 0 ∧
    (Run o).termination = Termination.returned ∧
    (∃ pre c,
      (Run o).trace = pre ++ [Event.logInfo launchLog "starting manager", Event.call c none] ∧
      c.step = some Step.mgrStart ∧
      Step.mgrStart ∉ stepsOf pre) ∧
    (Run o).trace.filter Event.isErrorLog = [] ∧
    (Run o).trace.filter Event.isInfoLog =
      [Event.logInfo launchLog "configuring manager",
        Event.logInfo launchLog "configuring probes",
        Event.logInfo launchLog "configuring services",
        Event.logInfo launchLog "configuring ingress reconciler",
        Event.logInfo launchLog "starting manager"] := by
  obtain ⟨c, m, hz, rz, sv, rc, st⟩ := o
  rcases c with e | c
  · simp [Outcomes.allSucceed] at h
  rcases m with e | m
  · simp [Outcomes.allSucceed] at h
  simp only [Outcomes.allSucceed, Bool.and_eq_true, Option.isNone_iff_eq_none] at h
  obtain ⟨⟨⟨⟨⟨_, h1⟩, h2⟩, h3⟩, h4⟩, h5⟩ := h
  subst h1 h2 h3 h4 h5
  refine ⟨rfl, rfl, ⟨(Run ⟨.ok c, .ok m, none, none, none, none, none⟩).trace.take 13,
    Call.mgrStart m runCtx, ?_, rfl, ?_⟩, ?_, ?_⟩
  · simp [Run, launchLog, runCtx]
  · simp [Run, stepsOf, callLog, Event.stepOk, Call.step]
  · simp [Run, Event.isErrorLog]
  · simp [Run, Event.isInfoLog, launchLog]

/-- Witness of C8 as amended. -/
theorem Run_clean_shutdown_witness :
    (Run okOutcomes).status = 0 ∧
    (Run okOutcomes).termination = Termination.returned ∧
    (∃ pre c,
      (Run okOutcomes).trace =
        pre ++ [Event.logInfo launchLog "starting manager", Event.call c none] ∧
      c.step = some Step.mgrStart ∧
      Step.mgrStart ∉ stepsOf pre) ∧
    (Run okOutcomes).trace.filter Event.isErrorLog = [] ∧
    (Run okOutcomes).trace.filter Event.isInfoLog =
      [Event.logInfo launchLog "configuring manager",
        Event.logInfo launchLog "configuring probes",
        Event.logInfo launchLog "configuring services",
        Event.logInfo launchLog "configuring ingress reconciler",
        Event.logInfo launchLog "starting manager"] :=
  Run_clean_shutdown okOutcomes (by decide)

end launch
